import Mathlib

/-!
Verification development for the loose-dirt falling-sand cellular automaton.

The Rust source keeps one `Element` per grid cell (`Air`, `Rock`, `Water`,
`Sand(u8)`); every frame a `rules` pass reads each cell together with four
cached neighbour observations (`UpNeighbour`, `DownNeighbour`, `LeftNeighbour`,
`RightNeighbour`, each possibly absent) and either rewrites the cell in place
or swaps it with a destination cell, and a `neighbours` pass then pushes the
new value of every changed cell onto the observation slots of its four
orthogonal neighbours.  The definitions below are a shallow embedding of that
code: lists indexed in row-major order stand for the entity arrays, explicit
boolean lists stand for the change-detection filters, and the random draw of
`destabilize_offset` is an explicit functional argument.
-/

namespace LooseDirt

/-- Material of one cell, from `enum Element` in main.rs.  The `Sand` payload
is the u8 compaction counter, modelled as a natural number; the only
arithmetic performed on it in the source is reduced mod 256 where it occurs. -/
inductive Element where
  | Air : Element
  | Rock : Element
  | Water : Element
  | Sand : ℕ → Element
deriving DecidableEq, Repr

/-- Embedding of `support_strength` from main.rs. -/
def support_strength (element : Option Element) : ℕ :=
  match element with
  | some (Element.Sand _) => 1
  | some Element.Rock => 2
  | _ => 0

/-- Test used by `destabilize_offset`: the Rust pattern
`Some(Element::Air | Element::Water)`. -/
def flows (e : Option Element) : Bool :=
  match e with
  | some Element.Air => true
  | some Element.Water => true
  | _ => false

/-- Lower end of the random range in `destabilize_offset`. -/
def destabilize_min (left : Option Element) (eagerness : ℚ) : ℚ :=
  if flows left then -eagerness else 0

/-- Upper end of the random range in `destabilize_offset`. -/
def destabilize_max (right : Option Element) (eagerness : ℚ) : ℚ :=
  if flows right then eagerness else 0

/-- Truncation toward zero, the `as isize` cast applied to the drawn float. -/
def ratTrunc (q : ℚ) : ℤ := q.num.tdiv (q.den : ℤ)

/-- Embedding of `destabilize_offset` from main.rs.  The thread-local random
draw `gen_range(min..=max)` is modelled by the explicit argument `g`, called
on the computed bounds; theorems that depend on the draw being inside the
range state that as a hypothesis. -/
def destabilize_offset (left right : Option Element) (eagerness : ℚ)
    (g : ℚ → ℚ → ℚ) : ℤ :=
  (ratTrunc (g (destabilize_min left eagerness) (destabilize_max right eagerness))).sign

/-- Pure core of the `rules` system in main.rs: given the cell coordinate, its
current element and the four cached neighbour observations, produce the
destination coordinate and destination element, or `none` for the `continue`
arms (no action this tick).  `g` is the random draw for this one evaluation. -/
def rulesDest (x y : ℤ) (element : Element) (up down left right : Option Element)
    (g : ℚ → ℚ → ℚ) : Option (ℤ × ℤ × Element) :=
  match element with
  | Element.Air => none
  | Element.Rock =>
    match up, down, left, right with
    | some Element.Rock, _, _, _ => none
    | none, _, _, _ => none
    | _, some Element.Rock, _, _ => none
    | _, none, _, _ => none
    | _, _, some Element.Rock, _ => none
    | _, _, none, _ => none
    | _, _, _, some Element.Rock => none
    | _, _, _, none => none
    | _, _, _, _ => some (x, y, Element.Sand 0)
  | Element.Water =>
    match down with
    | some Element.Air => some (x, y - 1, Element.Water)
    | _ => some (x + destabilize_offset left right 5 g, y, Element.Water)
  | Element.Sand _ =>
    match down with
    | some Element.Air | some Element.Water => some (x, y - 1, Element.Sand 0)
    | some Element.Rock | none => some (x, y, Element.Sand 0)
    | some (Element.Sand distance) =>
      let strength :=
        (distance + support_strength left + support_strength right + 1) % 256
      if strength < 3 then some (x, y, Element.Sand strength)
      else some (x + destabilize_offset left right (13 / 10) g, y, Element.Sand 0)

/-- Grid resource from tilemap.rs.  The `content` array of entity handles is
collapsed to the element resident at each index: entities are created once in
row-major order at startup and the handle array is never rewritten, so index
`y * width + x` stands for the entity of cell `(x, y)`. -/
structure Tilemap where
  width : ℤ
  height : ℤ
  content : List Element
deriving DecidableEq, Repr

/-- Embedding of `Tilemap::get`.  Faithful to the source, including its bounds
check of the y-coordinate against the width (`y >= self.width`) and the
subsequent checked slice access at index `y * width + x`. -/
def Tilemap.get (t : Tilemap) (x y : ℤ) : Option Element :=
  if x < 0 ∨ y < 0 ∨ t.width ≤ x ∨ t.width ≤ y then none
  else t.content.get? (y * t.width + x).toNat

/-- Index-level version of `Tilemap::get` used by the tick model: same bounds
check against the width, then the checked slice access, returning the flat
index of the addressed cell. -/
def getIdx (width : ℤ) (len : ℕ) (x y : ℤ) : Option ℕ :=
  if x < 0 ∨ y < 0 ∨ width ≤ x ∨ width ≤ y then none
  else if (y * width + x).toNat < len then some (y * width + x).toNat else none

/-- Plugin construction parameters, from `TilemapPlugin` in tilemap.rs. -/
structure TilemapPlugin where
  width : ℤ
  height : ℤ
  scale : ℚ
  template : Element
deriving DecidableEq, Repr

/-- Embedding of `TilemapPlugin::new`: it stores the usize dimensions as isize
and performs no validation whatsoever. -/
def TilemapPlugin.new (width height : ℕ) (scale : ℚ) (template : Element) :
    TilemapPlugin :=
  ⟨(width : ℤ), (height : ℤ), scale, template⟩

/-- Grid produced by `TilemapPlugin::build` plus the startup `init` system:
`width * height` cells, each holding the template element. -/
def TilemapPlugin.buildTilemap (p : TilemapPlugin) : Tilemap :=
  ⟨p.width, p.height, List.replicate (p.width * p.height).toNat p.template⟩

/-- Full simulation state between frames.  `elem` is the element component of
each cell in row-major order; `up`, `down`, `left`, `right` are the cached
neighbour-observation components (absent until first inserted); `chR` records
which cells pass the `rules` system's change filter on the next frame
(element or any observation changed since it last ran, excluding its own
writes); `chN` records which cells pass the `neighbours` system's
`Changed<Element>` filter (element written this frame by painting or rules). -/
structure SimState where
  width : ℤ
  height : ℤ
  elem : List Element
  up : List (Option Element)
  down : List (Option Element)
  left : List (Option Element)
  right : List (Option Element)
  chR : List Bool
  chN : List Bool
deriving DecidableEq, Repr

/-- Accumulator of the `rules` pass.  `cur` is the live element array (read
and written through `get_unchecked` in the source), `written` marks cells
whose element was written earlier in this same pass (in-place rewrites and
both ends of a swap — change detection marks them, so a later visit still
evaluates them).  `evals` and `reeval` are proof bookkeeping only, recording
how often each cell reached the rule match and whether it did so after its
element had already been written this pass; they influence nothing. -/
structure PassOut where
  cur : List Element
  written : List Bool
  evals : List ℕ
  reeval : List Bool
deriving DecidableEq, Repr

/-- One visit of the `rules` pass at flat index `i`: the query yields the cell
when its element or an observation changed (pre-pass flag, or a write earlier
in this pass); `Air` cells are skipped; otherwise `rulesDest` is evaluated on
the live element and the pass-initial observations, then committed: in-place
writes only when the value differs, swaps through the (buggy) `Tilemap::get`
lookup of the destination. -/
def rulesStep (width : ℤ) (chR : List Bool)
    (up down left right : List (Option Element)) (g : ℕ → ℚ → ℚ → ℚ)
    (acc : PassOut) (i : ℕ) : PassOut :=
  if chR.getD i false || acc.written.getD i false then
    let e := acc.cur.getD i Element.Air
    if e = Element.Air then acc
    else
      let acc1 : PassOut :=
        { acc with
          evals := acc.evals.set i (acc.evals.getD i 0 + 1)
          reeval := acc.reeval.set i
            (acc.reeval.getD i false || acc.written.getD i false) }
      let x : ℤ := (i : ℤ) % width
      let y : ℤ := (i : ℤ) / width
      match rulesDest x y e (up.getD i none) (down.getD i none) (left.getD i none)
          (right.getD i none) (g i) with
      | none => acc1
      | some (dx, dy, de) =>
        if dx = x ∧ dy = y then
          if e = de then acc1
          else { acc1 with cur := acc1.cur.set i de
                           written := acc1.written.set i true }
        else
          match getIdx width acc1.cur.length dx dy with
          | none => acc1
          | some j =>
            { acc1 with
              cur := (acc1.cur.set i (acc1.cur.getD j Element.Air)).set j e
              written := (acc1.written.set i true).set j true }
  else acc

/-- The `rules` system for one frame: a single visit of every cell in
row-major (spawn) order, starting from the live element array. -/
def rulesPass (st : SimState) (g : ℕ → ℚ → ℚ → ℚ) : PassOut :=
  (List.range st.elem.length).foldl
    (rulesStep st.width st.chR st.up st.down st.left st.right g)
    ⟨st.elem, List.replicate st.elem.length false,
      List.replicate st.elem.length 0, List.replicate st.elem.length false⟩

/-- Embedding of `mark_neighbour` acting on one observation array: look the
recipient coordinate up through the buggy bounds check and, when it resolves,
overwrite that recipient's cached observation. -/
def markNeighbour (width : ℤ) (len : ℕ) (comp : List (Option Element))
    (x y : ℤ) (value : Element) : List (Option Element) :=
  match getIdx width len x y with
  | some t => comp.set t (some value)
  | none => comp

/-- Change-filter effect of `mark_neighbour`: a component insertion marks the
recipient as changed for the next frame's `rules` run. -/
def markFlag (width : ℤ) (len : ℕ) (marks : List Bool) (x y : ℤ) : List Bool :=
  match getIdx width len x y with
  | some t => marks.set t true
  | none => marks

/-- Result of the `neighbours` pass: the four observation arrays and the set
of cells that received an insertion (hence pass the next rules filter). -/
structure NbOut where
  up : List (Option Element)
  down : List (Option Element)
  left : List (Option Element)
  right : List (Option Element)
  marks : List Bool
deriving DecidableEq, Repr

/-- One iteration of the `neighbours` system at pusher index `j`: if the
cell's element changed this frame, push its value as the `UpNeighbour` of
`(x, y-1)`, the `DownNeighbour` of `(x, y+1)`, the `LeftNeighbour` of
`(x+1, y)` and the `RightNeighbour` of `(x-1, y)`, exactly as the four
`mark_neighbour` calls in tilemap.rs do. -/
def nbStep (width : ℤ) (len : ℕ) (elem : List Element) (chN : List Bool)
    (acc : NbOut) (j : ℕ) : NbOut :=
  if chN.getD j false then
    let v := elem.getD j Element.Air
    let x : ℤ := (j : ℤ) % width
    let y : ℤ := (j : ℤ) / width
    { up := markNeighbour width len acc.up x (y - 1) v
      down := markNeighbour width len acc.down x (y + 1) v
      left := markNeighbour width len acc.left (x + 1) y v
      right := markNeighbour width len acc.right (x - 1) y v
      marks := markFlag width len (markFlag width len (markFlag width len
        (markFlag width len acc.marks x (y - 1)) x (y + 1)) (x + 1) y)
        (x - 1) y }
  else acc

/-- The `neighbours` system for one frame, folded over all pusher cells. -/
def neighbours (width : ℤ) (elem : List Element) (chN : List Bool)
    (up down left right : List (Option Element)) : NbOut :=
  (List.range elem.length).foldl (nbStep width elem.length elem chN)
    ⟨up, down, left, right, List.replicate elem.length false⟩

/-- One frame of the schedule: the `Run` stage executes `rules`, then the
`Tally` stage executes `neighbours` over every cell whose element changed
during this frame, and the change filters are rolled over: next frame's
`rules` filter holds exactly the cells that received an observation insertion
(a system does not re-see its own writes), and the `Changed<Element>` set is
drained. -/
def tick (st : SimState) (g : ℕ → ℚ → ℚ → ℚ) : SimState :=
  let p := rulesPass st g
  let nb := neighbours st.width p.cur
    (List.zipWith (fun a b => a || b) st.chN p.written)
    st.up st.down st.left st.right
  { width := st.width, height := st.height, elem := p.cur,
    up := nb.up, down := nb.down, left := nb.left, right := nb.right,
    chR := nb.marks, chN := List.replicate st.elem.length false }

/-- One brush write from `change_element` in main.rs: the cell is found
through the buggy `Tilemap::get`, its element is overwritten unconditionally,
and change detection marks it for both downstream systems. -/
def paintCell (st : SimState) (x y : ℤ) (e : Element) : SimState :=
  match getIdx st.width st.elem.length x y with
  | none => st
  | some i =>
    { st with elem := st.elem.set i e, chR := st.chR.set i true,
              chN := st.chN.set i true }

/-- State right after startup: every cell holds the template `Air`, and all
components were just inserted, so every change filter is full. -/
def initState (w h : ℤ) : SimState :=
  ⟨w, h, List.replicate (w * h).toNat Element.Air,
    List.replicate (w * h).toNat none, List.replicate (w * h).toNat none,
    List.replicate (w * h).toNat none, List.replicate (w * h).toNat none,
    List.replicate (w * h).toNat true, List.replicate (w * h).toNat true⟩

/-- Iterated ticks, drawing from a fresh random source each frame. -/
def tickSeq (gs : ℕ → ℕ → ℚ → ℚ → ℚ) : ℕ → SimState → SimState
  | 0, st => st
  | n + 1, st => tickSeq (fun k => gs (k + 1)) n (tick st (gs 0))

/-- States the running program can be in: startup with any dimensions, then
any interleaving of brush writes (the palette paints `Rock`, `Water` or
`Sand(0)`, the right button paints `Air`) and simulation frames. -/
inductive Reach : SimState → Prop where
  | init (w h : ℤ) : Reach (initState w h)
  | paint (st : SimState) (x y : ℤ) (e : Element)
      (he : e = Element.Rock ∨ e = Element.Water ∨ e = Element.Sand 0 ∨
        e = Element.Air)
      (h : Reach st) : Reach (paintCell st x y e)
  | tick (st : SimState) (g : ℕ → ℚ → ℚ → ℚ) (h : Reach st) : Reach (tick st g)

/-! List access helpers used throughout the proofs. -/

lemma getD_set_ne {α : Type} (l : List α) (i j : ℕ) (a d : α) (h : i ≠ j) :
    (l.set i a).getD j d = l.getD j d := by
  simp [List.getD_eq_getElem?_getD, List.getElem?_set, h]

lemma getD_set_self {α : Type} (l : List α) (i : ℕ) (a d : α)
    (h : i < l.length) :
    (l.set i a).getD i d = a := by
  simp [List.getD_eq_getElem?_getD, List.getElem?_set, h]

lemma getD_mem_or {α : Type} (l : List α) (i : ℕ) (d : α) :
    l.getD i d ∈ l ∨ l.getD i d = d := by
  rcases h : l.get? i with _ | a
  · right
    simp [List.getD_eq_getElem?_getD, ← List.get?_eq_getElem?, h]
  · left
    have : l.getD i d = a := by
      simp [List.getD_eq_getElem?_getD, ← List.get?_eq_getElem?, h]
    rw [this]
    exact List.get?_mem h

lemma getD_replicate {α : Type} (n i : ℕ) (a : α) :
    (List.replicate n a).getD i a = a := by
  rcases getD_mem_or (List.replicate n a) i a with h | h
  · exact List.eq_of_mem_replicate h
  · exact h

/-- Boundedness predicate on a material: a sand payload of at most 2. -/
def okElem (e : Element) : Prop := ∀ n, e = Element.Sand n → n ≤ 2

/-- Boundedness predicate on a cached observation. -/
def okOpt (o : Option Element) : Prop := ∀ n, o = some (Element.Sand n) → n ≤ 2

lemma okElem_air : okElem Element.Air := by intro n h; exact absurd h (by simp)

lemma okOpt_of_okElem {e : Element} (h : okElem e) : okOpt (some e) := by
  intro n hn
  exact h n (by injection hn)

/-- Helper predicate deciding the `Some(Element::Rock) | None` pattern of the
four `Rock` match arms. -/
def rockOrNone (o : Option Element) : Bool :=
  match o with
  | some Element.Rock => true
  | none => true
  | _ => false

set_option maxHeartbeats 1000000 in
/-- Case-complete description of the `Rock` arm of `rules`: the cell is left
alone exactly when at least one of the four observations is `Rock` or absent,
and is rewritten in place to `Sand(0)` otherwise. -/
lemma rulesDest_rock_eq (x y : ℤ) (u d l r : Option Element) (g : ℚ → ℚ → ℚ) :
    rulesDest x y Element.Rock u d l r g =
      if rockOrNone u || rockOrNone d || rockOrNone l || rockOrNone r then none
      else some (x, y, Element.Sand 0) := by
  rcases u with _ | (_ | _ | _ | nu) <;> rcases d with _ | (_ | _ | _ | nd) <;>
    rcases l with _ | (_ | _ | _ | nl) <;> rcases r with _ | (_ | _ | _ | nr) <;> rfl

/-- Every element the rule evaluation writes has a sand payload of at most 2:
the written materials are `Sand 0`, `Water`, or `Sand strength` under the
guard `strength < 3`. -/
lemma rulesDest_ok (x y : ℤ) (e : Element) (u d l r : Option Element)
    (g : ℚ → ℚ → ℚ) (dx dy : ℤ) (de : Element)
    (h : rulesDest x y e u d l r g = some (dx, dy, de)) : okElem de := by
  intro n hn
  subst hn
  cases e with
  | Air => simp [rulesDest] at h
  | Rock =>
    rw [rulesDest_rock_eq] at h
    split at h
    · exact absurd h (by simp)
    · simp at h
      omega
  | Water =>
    rcases d with _ | (_ | _ | _ | nd) <;> simp [rulesDest] at h
  | Sand c =>
    rcases d with _ | (_ | _ | _ | nd) <;> simp [rulesDest] at h <;> try omega
    split at h <;> simp at h <;> omega

/-- One `rules` visit keeps every element of the live array bounded. -/
lemma rulesStep_ok (width : ℤ) (chR : List Bool)
    (up down left right : List (Option Element)) (g : ℕ → ℚ → ℚ → ℚ)
    (acc : PassOut) (i : ℕ) (hok : ∀ e ∈ acc.cur, okElem e) :
    ∀ e ∈ (rulesStep width chR up down left right g acc i).cur, okElem e := by
  simp only [rulesStep]
  split
  · split
    · exact hok
    · split
      · exact hok
      · rename_i heq
        split
        · split
          · exact hok
          · intro e he
            rcases List.mem_or_eq_of_mem_set he with h | h
            · exact hok e h
            · subst h
              exact rulesDest_ok _ _ _ _ _ _ _ _ _ _ _ heq
        · split
          · exact hok
          · intro e he
            rcases List.mem_or_eq_of_mem_set he with h | h
            · rcases List.mem_or_eq_of_mem_set h with h2 | h2
              · exact hok e h2
              · subst h2
                rcases getD_mem_or acc.cur _ Element.Air with h3 | h3
                · exact hok _ h3
                · rw [h3]
                  exact okElem_air
            · subst h
              rcases getD_mem_or acc.cur i Element.Air with h3 | h3
              · exact hok _ h3
              · rw [h3]
                exact okElem_air
  · exact hok

/-- The whole `rules` pass keeps every element bounded. -/
lemma rulesPass_ok (st : SimState) (g : ℕ → ℚ → ℚ → ℚ)
    (hok : ∀ e ∈ st.elem, okElem e) :
    ∀ e ∈ (rulesPass st g).cur, okElem e := by
  unfold rulesPass
  generalize List.range st.elem.length = idxs
  have h0 : ∀ e ∈ (⟨st.elem, List.replicate st.elem.length false,
      List.replicate st.elem.length 0,
      List.replicate st.elem.length false⟩ : PassOut).cur, okElem e := hok
  generalize (⟨st.elem, List.replicate st.elem.length false,
      List.replicate st.elem.length 0,
      List.replicate st.elem.length false⟩ : PassOut) = acc at h0 ⊢
  induction idxs generalizing acc with
  | nil => exact h0
  | cons i rest ih =>
    exact ih _ (rulesStep_ok _ _ _ _ _ _ _ _ _ h0)

lemma markNeighbour_ok (width : ℤ) (len : ℕ) (comp : List (Option Element))
    (x y : ℤ) (v : Element) (hv : okElem v) (hok : ∀ o ∈ comp, okOpt o) :
    ∀ o ∈ markNeighbour width len comp x y v, okOpt o := by
  unfold markNeighbour
  split
  · intro o ho
    rcases List.mem_or_eq_of_mem_set ho with h | h
    · exact hok o h
    · subst h
      exact okOpt_of_okElem hv
  · exact hok

lemma nbStep_ok (width : ℤ) (len : ℕ) (elem : List Element) (chN : List Bool)
    (acc : NbOut) (j : ℕ) (helem : ∀ e ∈ elem, okElem e)
    (hu : ∀ o ∈ acc.up, okOpt o) (hd : ∀ o ∈ acc.down, okOpt o)
    (hl : ∀ o ∈ acc.left, okOpt o) (hr : ∀ o ∈ acc.right, okOpt o) :
    (∀ o ∈ (nbStep width len elem chN acc j).up, okOpt o) ∧
    (∀ o ∈ (nbStep width len elem chN acc j).down, okOpt o) ∧
    (∀ o ∈ (nbStep width len elem chN acc j).left, okOpt o) ∧
    (∀ o ∈ (nbStep width len elem chN acc j).right, okOpt o) := by
  have hv : okElem (elem.getD j Element.Air) := by
    rcases getD_mem_or elem j Element.Air with h | h
    · exact helem _ h
    · rw [h]
      exact okElem_air
  simp only [nbStep]
  split
  · exact ⟨markNeighbour_ok _ _ _ _ _ _ hv hu, markNeighbour_ok _ _ _ _ _ _ hv hd,
      markNeighbour_ok _ _ _ _ _ _ hv hl, markNeighbour_ok _ _ _ _ _ _ hv hr⟩
  · exact ⟨hu, hd, hl, hr⟩

lemma neighbours_ok (width : ℤ) (elem : List Element) (chN : List Bool)
    (up down left right : List (Option Element))
    (helem : ∀ e ∈ elem, okElem e)
    (hu : ∀ o ∈ up, okOpt o) (hd : ∀ o ∈ down, okOpt o)
    (hl : ∀ o ∈ left, okOpt o) (hr : ∀ o ∈ right, okOpt o) :
    (∀ o ∈ (neighbours width elem chN up down left right).up, okOpt o) ∧
    (∀ o ∈ (neighbours width elem chN up down left right).down, okOpt o) ∧
    (∀ o ∈ (neighbours width elem chN up down left right).left, okOpt o) ∧
    (∀ o ∈ (neighbours width elem chN up down left right).right, okOpt o) := by
  unfold neighbours
  generalize List.range elem.length = idxs
  have h0 : (∀ o ∈ (⟨up, down, left, right,
      List.replicate elem.length false⟩ : NbOut).up, okOpt o) ∧
      (∀ o ∈ (⟨up, down, left, right,
        List.replicate elem.length false⟩ : NbOut).down, okOpt o) ∧
      (∀ o ∈ (⟨up, down, left, right,
        List.replicate elem.length false⟩ : NbOut).left, okOpt o) ∧
      (∀ o ∈ (⟨up, down, left, right,
        List.replicate elem.length false⟩ : NbOut).right, okOpt o) :=
    ⟨hu, hd, hl, hr⟩
  generalize (⟨up, down, left, right,
      List.replicate elem.length false⟩ : NbOut) = acc at h0 ⊢
  induction idxs generalizing acc with
  | nil => exact h0
  | cons j rest ih =>
    exact ih _ (nbStep_ok _ _ _ _ _ _ helem h0.1 h0.2.1 h0.2.2.1 h0.2.2.2)

/-- The reachability invariant: every resident material and every cached
observation carries a sand payload of at most 2. -/
def Inv (st : SimState) : Prop :=
  (∀ e ∈ st.elem, okElem e) ∧ (∀ o ∈ st.up, okOpt o) ∧
    (∀ o ∈ st.down, okOpt o) ∧ (∀ o ∈ st.left, okOpt o) ∧
    (∀ o ∈ st.right, okOpt o)

lemma inv_init (w h : ℤ) : Inv (initState w h) := by
  refine ⟨?_, ?_, ?_, ?_, ?_⟩ <;> intro o ho <;>
    first
      | (rw [List.eq_of_mem_replicate ho]; exact okElem_air)
      | (rw [List.eq_of_mem_replicate ho]; intro n hn; exact absurd hn (by simp))

lemma inv_paint (st : SimState) (x y : ℤ) (e : Element)
    (he : e = Element.Rock ∨ e = Element.Water ∨ e = Element.Sand 0 ∨
      e = Element.Air)
    (h : Inv st) : Inv (paintCell st x y e) := by
  have hoke : okElem e := by
    rcases he with h1 | h1 | h1 | h1 <;> subst h1 <;> intro n hn <;>
      (simp at hn; try omega)
  unfold paintCell
  split
  · exact h
  · refine ⟨?_, h.2.1, h.2.2.1, h.2.2.2.1, h.2.2.2.2⟩
    intro a ha
    rcases List.mem_or_eq_of_mem_set ha with h2 | h2
    · exact h.1 a h2
    · subst h2
      exact hoke

lemma inv_tick (st : SimState) (g : ℕ → ℚ → ℚ → ℚ) (h : Inv st) :
    Inv (tick st g) := by
  have helem : ∀ e ∈ (rulesPass st g).cur, okElem e := rulesPass_ok st g h.1
  have hnb := neighbours_ok st.width (rulesPass st g).cur
    (List.zipWith (fun a b => a || b) st.chN (rulesPass st g).written)
    st.up st.down st.left st.right helem h.2.1 h.2.2.1 h.2.2.2.1 h.2.2.2.2
  exact ⟨helem, hnb.1, hnb.2.1, hnb.2.2.1, hnb.2.2.2⟩

lemma inv_reach (st : SimState) (h : Reach st) : Inv st := by
  induction h with
  | init w h => exact inv_init w h
  | paint st x y e he _ ih => exact inv_paint st x y e he ih
  | tick st g _ ih => exact inv_tick st g ih

lemma support_strength_le (o : Option Element) : support_strength o ≤ 2 := by
  rcases o with _ | (_ | _ | _ | n) <;> simp [support_strength]

lemma sign_cases (z : ℤ) : z.sign = -1 ∨ z.sign = 0 ∨ z.sign = 1 := by
  rcases z with n | n
  · cases n with
    | zero => simp [Int.sign]
    | succ m => simp [Int.sign]
  · simp [Int.sign]

/-- C7: in every state reachable from the all-Empty grid by painting and
ticking, the compaction value of every Granular cell never exceeds the
destabilization threshold 3 and stays within [0, 255]; in particular the
strength computation distance + support(Left) + support(Right) + 1 on any
cached Down observation never exceeds 255, so it never overflows a u8. -/
theorem c7_compaction_invariant (st : SimState) (h : Reach st) :
    (∀ e ∈ st.elem, ∀ n, e = Element.Sand n → n ≤ 3 ∧ n ≤ 255) ∧
    (∀ i dn, st.down.getD i none = some (Element.Sand dn) →
      dn + support_strength (st.left.getD i none) +
        support_strength (st.right.getD i none) + 1 ≤ 255) := by
  have hinv := inv_reach st h
  constructor
  · intro e he n hn
    have := hinv.1 e he n hn
    omega
  · intro i dn hdn
    have hdn2 : dn ≤ 2 := by
      rcases getD_mem_or st.down i none with h2 | h2
      · exact hinv.2.2.1 _ h2 dn hdn
      · rw [h2] at hdn
        exact absurd hdn (by simp)
    have h3 := support_strength_le (st.left.getD i none)
    have h4 := support_strength_le (st.right.getD i none)
    omega

/-- Witness for C7 at the concrete reachable state of a freshly started 1x1
grid. -/
theorem c7_compaction_invariant_witness :
    (∀ e ∈ (initState 1 1).elem, ∀ n, e = Element.Sand n → n ≤ 3 ∧ n ≤ 255) ∧
    (∀ i dn, (initState 1 1).down.getD i none = some (Element.Sand dn) →
      dn + support_strength ((initState 1 1).left.getD i none) +
        support_strength ((initState 1 1).right.getD i none) + 1 ≤ 255) :=
  c7_compaction_invariant (initState 1 1) (Reach.init 1 1)

/-- C4: a Granular cell whose Down observation is Granular(distance) computes
strength = distance + support(Left) + support(Right) + 1 (support: Granular 1,
Solid 2, anything else 0); below 3 it compacts in place to Granular(strength),
otherwise it destabilizes to (x + lateral offset at eagerness 1.3, y) with
material Granular(0).  The hypothesis keeps the u8 sum below overflow; every
reachable state satisfies it. -/
theorem c4_granular_strength (x y : ℤ) (c dist : ℕ)
    (up left right : Option Element) (g : ℚ → ℚ → ℚ)
    (h : dist + support_strength left + support_strength right + 1 ≤ 255) :
    rulesDest x y (Element.Sand c) up (some (Element.Sand dist)) left right g =
      (if dist + support_strength left + support_strength right + 1 < 3 then
        some (x, y,
          Element.Sand (dist + support_strength left + support_strength right + 1))
      else
        some (x + destabilize_offset left right (13 / 10) g, y,
          Element.Sand 0)) := by
  have hm : (dist + support_strength left + support_strength right + 1) % 256 =
      dist + support_strength left + support_strength right + 1 :=
    Nat.mod_eq_of_lt (by omega)
  simp only [rulesDest, hm]

/-- Witness for C4: a concrete pile with solid support on the left
destabilizes. -/
theorem c4_granular_strength_witness :
    1 + support_strength (some Element.Rock) + support_strength none + 1 ≤ 255 ∧
    rulesDest 0 0 (Element.Sand 0) none (some (Element.Sand 1))
        (some Element.Rock) none (fun _ _ => 0) =
      (if 1 + support_strength (some Element.Rock) + support_strength none + 1 < 3
      then some (0, 0, Element.Sand
          (1 + support_strength (some Element.Rock) + support_strength none + 1))
      else some (0 + destabilize_offset (some Element.Rock) none (13 / 10)
          (fun _ _ => 0), 0, Element.Sand 0)) :=
  ⟨by decide,
    c4_granular_strength 0 0 0 1 none (some Element.Rock) none (fun _ _ => 0)
      (by decide)⟩

/-- C8: the lateral offset is always in {-1, 0, 1}; and whenever the draw
respects the computed range and neither the Left nor the Right observation is
Empty or Liquid, the range collapses to [0, 0] and the offset is 0. -/
theorem c8_offset_bounds (left right : Option Element) (eagerness : ℚ)
    (g : ℚ → ℚ → ℚ) :
    (destabilize_offset left right eagerness g = -1 ∨
      destabilize_offset left right eagerness g = 0 ∨
      destabilize_offset left right eagerness g = 1) ∧
    ((destabilize_min left eagerness ≤
        g (destabilize_min left eagerness) (destabilize_max right eagerness) ∧
      g (destabilize_min left eagerness) (destabilize_max right eagerness) ≤
        destabilize_max right eagerness) →
      flows left = false → flows right = false →
      destabilize_offset left right eagerness g = 0) := by
  constructor
  · exact sign_cases _
  · intro hrange hl hr
    have hmin : destabilize_min left eagerness = 0 := by
      simp [destabilize_min, hl]
    have hmax : destabilize_max right eagerness = 0 := by
      simp [destabilize_max, hr]
    rw [hmin, hmax] at hrange
    have hg : g 0 0 = 0 := le_antisymm hrange.2 hrange.1
    simp [destabilize_offset, hmin, hmax, hg, ratTrunc]

/-- Witness for C8 with both observations absent and the draw at 0. -/
theorem c8_offset_bounds_witness :
    (destabilize_offset none none 5 (fun _ _ => 0) = -1 ∨
      destabilize_offset none none 5 (fun _ _ => 0) = 0 ∨
      destabilize_offset none none 5 (fun _ _ => 0) = 1) ∧
    destabilize_offset none none 5 (fun _ _ => 0) = 0 :=
  ⟨(c8_offset_bounds none none 5 (fun _ _ => 0)).1,
    (c8_offset_bounds none none 5 (fun _ _ => 0)).2
      ⟨by decide, by decide⟩ rfl rfl⟩

/-- Decidable test that a material is granular. -/
def isSand (e : Element) : Bool :=
  match e with
  | Element.Sand _ => true
  | _ => false

/-- C10: the rule evaluation never converts Liquid away from Liquid, keeps a
Solid cell's destination at its own coordinate (converting it, if at all,
only to Granular(0) in place), keeps Granular granular, and leaves Empty
inert. -/
theorem c10_material_kinds (x y : ℤ) (up down left right : Option Element)
    (g : ℚ → ℚ → ℚ) (c : ℕ) :
    rulesDest x y Element.Air up down left right g = none ∧
    Option.all (fun p => p.2.2 == Element.Water)
      (rulesDest x y Element.Water up down left right g) = true ∧
    Option.all (fun p => p.1 == x && p.2.1 == y && p.2.2 == Element.Sand 0)
      (rulesDest x y Element.Rock up down left right g) = true ∧
    Option.all (fun p => isSand p.2.2)
      (rulesDest x y (Element.Sand c) up down left right g) = true := by
  refine ⟨rfl, ?_, ?_, ?_⟩
  · rcases down with _ | (_ | _ | _ | nd) <;> simp [rulesDest, Option.all]
  · rw [rulesDest_rock_eq]
    split
    · rfl
    · simp [Option.all]
  · rcases down with _ | (_ | _ | _ | nd)
    · simp [rulesDest, Option.all, isSand]
    · simp [rulesDest, Option.all, isSand]
    · simp [rulesDest, Option.all, isSand]
    · simp [rulesDest, Option.all, isSand]
    · simp only [rulesDest]
      split <;> simp [Option.all, isSand]

/-- C1 counterexample: a Solid cell whose Up observation is Empty but whose
Down observation is Solid: the claim says it converts in place to
Granular(0); the code leaves it untouched (`continue`). -/
theorem c1_solid_counterexample :
    rulesDest 5 7 Element.Rock (some Element.Air) (some Element.Rock)
        (some Element.Rock) (some Element.Rock) (fun _ _ => 0) = none ∧
    rulesDest 5 7 Element.Rock (some Element.Air) (some Element.Rock)
        (some Element.Rock) (some Element.Rock) (fun _ _ => 0) ≠
      some (5, 7, Element.Sand 0) := by
  exact ⟨rfl, by decide⟩

/-- C1 amended: a Solid cell remains Solid unchanged if at least one of its
Up/Down/Left/Right observations is Solid or out-of-range; it converts in
place to Granular(0) exactly when all four observations are present and none
of them is Solid. -/
theorem c1_solid_rule (x y : ℤ) (u d l r : Option Element) (g : ℚ → ℚ → ℚ) :
    rulesDest x y Element.Rock u d l r g =
      if rockOrNone u || rockOrNone d || rockOrNone l || rockOrNone r then none
      else some (x, y, Element.Sand 0) :=
  rulesDest_rock_eq x y u d l r g

/-- Concrete 1-wide, 3-tall grid used to exhibit the bounds-check bug. -/
def c3Map : Tilemap := ⟨1, 3, [Element.Rock, Element.Air, Element.Sand 0]⟩

/-- C3 counterexample: on a 1x3 grid the coordinate (0, 1) lies inside
[0,W)x[0,H), yet `get` returns `none`, because the y-coordinate is bounds
checked against the width. -/
theorem c3_get_counterexample :
    ((0 : ℤ) ≤ 0 ∧ (0 : ℤ) < c3Map.width ∧ (0 : ℤ) ≤ 1 ∧
      (1 : ℤ) < c3Map.height) ∧
    c3Map.get 0 1 = none := by decide

/-- C3 amended: `get(x,y)` returns the resident material exactly when (x,y)
lies in [0,W) x [0, min(W,H)) — the y-coordinate is wrongly compared against
the width, and the checked slice access cuts off anything past W*H — and
`none` otherwise. -/
theorem c3_get_bounds (t : Tilemap)
    (hlen : t.content.length = (t.width * t.height).toNat) (x y : ℤ) :
    ((∃ m, t.get x y = some m) ↔
      0 ≤ x ∧ x < t.width ∧ 0 ≤ y ∧ y < t.width ∧ y < t.height) ∧
    (∀ m, t.get x y = some m →
      t.content.get? (y * t.width + x).toNat = some m) := by
  unfold Tilemap.get
  by_cases hb : x < 0 ∨ y < 0 ∨ t.width ≤ x ∨ t.width ≤ y
  · rw [if_pos hb]
    constructor
    · constructor
      · rintro ⟨m, hm⟩
        exact absurd hm (by simp)
      · intro hrhs
        exfalso
        rcases hb with h1 | h1 | h1 | h1 <;> omega
    · intro m hm
      exact absurd hm (by simp)
  · rw [if_neg hb]
    push_neg at hb
    obtain ⟨hx0, hy0, hxw, hyw⟩ := hb
    have hw : 0 < t.width := by omega
    have hnn : 0 ≤ y * t.width + x := by
      have : 0 ≤ y * t.width := mul_nonneg (by omega) (by omega)
      omega
    constructor
    · constructor
      · rintro ⟨m, hm⟩
        have hidx : (y * t.width + x).toNat < t.content.length := by
          by_contra hge
          rw [List.get?_eq_none.2 (by omega)] at hm
          exact absurd hm (by simp)
        rw [hlen] at hidx
        refine ⟨by omega, by omega, by omega, by omega, ?_⟩
        by_contra hyh
        push_neg at hyh
        have h1 : t.width * t.height ≤ t.width * y :=
          mul_le_mul_of_nonneg_left hyh (by omega)
        have h2 : t.width * y ≤ y * t.width + x := by
          rw [mul_comm]
          omega
        have hpq : t.width * t.height ≤ y * t.width + x := le_trans h1 h2
        generalize hgp : y * t.width + x = p at hidx hpq hnn
        generalize hgq : t.width * t.height = q at hidx hpq
        omega
      · rintro ⟨hx, hxw2, hy, hyw2, hyh⟩
        have h1 : y * t.width + x < t.width * t.height := by
          have ha : y * t.width + x < (y + 1) * t.width := by
            have : (y + 1) * t.width = y * t.width + t.width := by ring
            omega
          have hb2 : (y + 1) * t.width ≤ t.height * t.width :=
            mul_le_mul_of_nonneg_right (by omega) (by omega)
          have hc : t.height * t.width = t.width * t.height := mul_comm _ _
          omega
        have h2 : (y * t.width + x).toNat < t.content.length := by
          rw [hlen]
          generalize hgp : y * t.width + x = p at h1 hnn
          generalize hgq : t.width * t.height = q at h1
          omega
        rcases hsome : t.content.get? (y * t.width + x).toNat with _ | m
        · rw [List.get?_eq_none] at hsome
          omega
        · exact ⟨m, rfl⟩
    · intro m hm
      exact hm

/-- Witness for C3 amended, instantiated on the concrete 1x3 grid at the
origin. -/
theorem c3_get_bounds_witness :
    ((∃ m, c3Map.get 0 0 = some m) ↔
      (0 : ℤ) ≤ 0 ∧ (0 : ℤ) < c3Map.width ∧ (0 : ℤ) ≤ 0 ∧
        (0 : ℤ) < c3Map.width ∧ (0 : ℤ) < c3Map.height) ∧
    (∀ m, c3Map.get 0 0 = some m →
      c3Map.content.get? ((0 : ℤ) * c3Map.width + 0).toNat = some m) :=
  c3_get_bounds c3Map (by decide) 0 0

/-- C9 counterexample: constructing the plugin with zero width and height is
not rejected; it succeeds and yields the usable zero-sized grid. -/
theorem c9_zero_construction :
    (TilemapPlugin.new 0 0 1 Element.Air).width = 0 ∧
    (TilemapPlugin.new 0 0 1 Element.Air).height = 0 ∧
    (TilemapPlugin.new 0 0 1 Element.Air).buildTilemap.content = [] := by
  decide

/-- C9 amended: construction never fails — for every width and height
(including zero; negative values are not representable in the usize
parameters) `new` returns a plugin with exactly those dimensions whose built
grid has width*height cells. -/
theorem c9_construction_total (w h : ℕ) (s : ℚ) (e : Element) :
    (TilemapPlugin.new w h s e).width = w ∧
    (TilemapPlugin.new w h s e).height = h ∧
    (TilemapPlugin.new w h s e).buildTilemap.content.length = w * h := by
  refine ⟨rfl, rfl, ?_⟩
  simp only [TilemapPlugin.new, TilemapPlugin.buildTilemap, List.length_replicate]
  rw [← Nat.cast_mul, Int.toNat_natCast]

lemma getIdx_lt (width : ℤ) (len : ℕ) (x y : ℤ) (t : ℕ)
    (h : getIdx width len x y = some t) : t < len := by
  unfold getIdx at h
  split at h
  · exact absurd h (by simp)
  · split at h
    · injection h with h2
      omega
    · exact absurd h (by simp)

lemma markNeighbour_getD (width : ℤ) (len : ℕ) (comp : List (Option Element))
    (x y : ℤ) (v : Element) (t : ℕ) (hcomp : comp.length = len) :
    (markNeighbour width len comp x y v).getD t none =
      if getIdx width len x y = some t then some v else comp.getD t none := by
  unfold markNeighbour
  rcases heq : getIdx width len x y with _ | t2
  · simp
  · by_cases ht : t2 = t
    · subst ht
      rw [if_pos rfl]
      apply getD_set_self
      rw [hcomp]
      exact getIdx_lt width len x y t2 heq
    · rw [if_neg (by simp [ht])]
      exact getD_set_ne _ _ _ _ _ ht

lemma foldl_range_eq_of_id {α : Type} (step : α → ℕ → α) (j : ℕ)
    (hid : ∀ (a : α) (k : ℕ), k ≠ j → step a k = a) :
    ∀ (n : ℕ) (a : α),
      (List.range n).foldl step a = if j < n then step a j else a := by
  intro n
  induction n with
  | zero => intro a; simp
  | succ m ih =>
    intro a
    rw [List.range_succ, List.foldl_append]
    simp only [List.foldl]
    rcases Nat.lt_trichotomy j m with hlt | heq | hgt
    · rw [ih, if_pos hlt, if_pos (by omega)]
      exact hid _ m (by omega)
    · subst heq
      rw [ih, if_neg (by omega), if_pos (by omega)]
    · rw [ih, if_neg (by omega), if_neg (by omega)]
      exact hid _ m (by omega)

/-- C6 counterexample on a 2x2 grid: after the propagation pass, the Up
observation of cell (0,0) holds the material of cell (0,1) — the neighbour at
offset (0,+1) — namely `Water`; under the claim, Up records offset (0,-1),
which for (0,0) is out of range, so no Up observation could exist at all. -/
theorem c6_offset_counterexample :
    (neighbours 2 [Element.Rock, Element.Air, Element.Water, Element.Air]
        [true, true, true, true] [none, none, none, none]
        [none, none, none, none] [none, none, none, none]
        [none, none, none, none]).up.getD 0 none = some Element.Water ∧
    (neighbours 2 [Element.Rock, Element.Air, Element.Water, Element.Air]
        [true, true, true, true] [none, none, none, none]
        [none, none, none, none] [none, none, none, none]
        [none, none, none, none]).up.getD 0 none ≠ none := by decide

/-- C6 amended: when the cell at flat index j (coordinates (x, y)) is the one
changed cell, the propagation pass writes its material as the Up observation
of the recipient `get(x, y-1)`, the Down observation of `get(x, y+1)`, the
Left observation of `get(x+1, y)` and the Right observation of `get(x-1, y)`,
leaving every other observation untouched — so a cell's Up observation holds
the material last seen at offset (0,+1) from it, Down at (0,-1), Left at
(-1,0) and Right at (+1,0), dual to the claimed directions. -/
theorem c6_neighbour_offsets (width : ℤ) (elem : List Element)
    (chN : List Bool) (u d l r : List (Option Element)) (j t : ℕ)
    (hu : u.length = elem.length) (hd : d.length = elem.length)
    (hl : l.length = elem.length) (hr : r.length = elem.length)
    (hsingle : ∀ k, k ≠ j → chN.getD k false = false) :
    ((neighbours width elem chN u d l r).up.getD t none =
      if j < elem.length ∧ chN.getD j false = true ∧
          getIdx width elem.length ((j : ℤ) % width) ((j : ℤ) / width - 1) =
            some t
      then some (elem.getD j Element.Air) else u.getD t none) ∧
    ((neighbours width elem chN u d l r).down.getD t none =
      if j < elem.length ∧ chN.getD j false = true ∧
          getIdx width elem.length ((j : ℤ) % width) ((j : ℤ) / width + 1) =
            some t
      then some (elem.getD j Element.Air) else d.getD t none) ∧
    ((neighbours width elem chN u d l r).left.getD t none =
      if j < elem.length ∧ chN.getD j false = true ∧
          getIdx width elem.length ((j : ℤ) % width + 1) ((j : ℤ) / width) =
            some t
      then some (elem.getD j Element.Air) else l.getD t none) ∧
    ((neighbours width elem chN u d l r).right.getD t none =
      if j < elem.length ∧ chN.getD j false = true ∧
          getIdx width elem.length ((j : ℤ) % width - 1) ((j : ℤ) / width) =
            some t
      then some (elem.getD j Element.Air) else r.getD t none) := by
  unfold neighbours
  have hid : ∀ (a : NbOut) (k : ℕ), k ≠ j →
      nbStep width elem.length elem chN a k = a := by
    intro a k hk
    simp only [nbStep, hsingle k hk]
    simp
  rw [foldl_range_eq_of_id _ j hid]
  by_cases hjn : j < elem.length
  · rw [if_pos hjn]
    by_cases hcj : chN.getD j false = true
    · simp only [nbStep, hcj, eq_self_iff_true, if_true]
      refine ⟨?_, ?_, ?_, ?_⟩ <;>
        rw [markNeighbour_getD _ _ _ _ _ _ _ (by assumption)] <;>
        split <;> simp_all
    · rw [Bool.not_eq_true] at hcj
      simp only [nbStep, hcj]
      simp
  · rw [if_neg hjn]
    simp [hjn]

/-- Witness for C6 amended: the single changed cell is (0,1) of a 2x2 grid,
holding `Water`; the recipient inspected is cell (0,0). -/
theorem c6_neighbour_offsets_witness :
    ((neighbours 2 [Element.Rock, Element.Air, Element.Water, Element.Air]
        [false, false, true, false] [none, none, none, none]
        [none, none, none, none] [none, none, none, none]
        [none, none, none, none]).up.getD 0 none =
      if 2 < [Element.Rock, Element.Air, Element.Water, Element.Air].length ∧
          [false, false, true, false].getD 2 false = true ∧
          getIdx 2 [Element.Rock, Element.Air, Element.Water,
            Element.Air].length ((2 : ℤ) % 2) ((2 : ℤ) / 2 - 1) = some 0
      then some ([Element.Rock, Element.Air, Element.Water,
        Element.Air].getD 2 Element.Air)
      else [none, none, none, none].getD 0 none) ∧
    ((neighbours 2 [Element.Rock, Element.Air, Element.Water, Element.Air]
        [false, false, true, false] [none, none, none, none]
        [none, none, none, none] [none, none, none, none]
        [none, none, none, none]).down.getD 0 none =
      if 2 < [Element.Rock, Element.Air, Element.Water, Element.Air].length ∧
          [false, false, true, false].getD 2 false = true ∧
          getIdx 2 [Element.Rock, Element.Air, Element.Water,
            Element.Air].length ((2 : ℤ) % 2) ((2 : ℤ) / 2 + 1) = some 0
      then some ([Element.Rock, Element.Air, Element.Water,
        Element.Air].getD 2 Element.Air)
      else [none, none, none, none].getD 0 none) ∧
    ((neighbours 2 [Element.Rock, Element.Air, Element.Water, Element.Air]
        [false, false, true, false] [none, none, none, none]
        [none, none, none, none] [none, none, none, none]
        [none, none, none, none]).left.getD 0 none =
      if 2 < [Element.Rock, Element.Air, Element.Water, Element.Air].length ∧
          [false, false, true, false].getD 2 false = true ∧
          getIdx 2 [Element.Rock, Element.Air, Element.Water,
            Element.Air].length ((2 : ℤ) % 2 + 1) ((2 : ℤ) / 2) = some 0
      then some ([Element.Rock, Element.Air, Element.Water,
        Element.Air].getD 2 Element.Air)
      else [none, none, none, none].getD 0 none) ∧
    ((neighbours 2 [Element.Rock, Element.Air, Element.Water, Element.Air]
        [false, false, true, false] [none, none, none, none]
        [none, none, none, none] [none, none, none, none]
        [none, none, none, none]).right.getD 0 none =
      if 2 < [Element.Rock, Element.Air, Element.Water, Element.Air].length ∧
          [false, false, true, false].getD 2 false = true ∧
          getIdx 2 [Element.Rock, Element.Air, Element.Water,
            Element.Air].length ((2 : ℤ) % 2 - 1) ((2 : ℤ) / 2) = some 0
      then some ([Element.Rock, Element.Air, Element.Water,
        Element.Air].getD 2 Element.Air)
      else [none, none, none, none].getD 0 none) :=
  c6_neighbour_offsets 2 [Element.Rock, Element.Air, Element.Water, Element.Air]
    [false, false, true, false] [none, none, none, none]
    [none, none, none, none] [none, none, none, none] [none, none, none, none]
    2 0 rfl rfl rfl rfl
    (by
      intro k hk
      rcases k with _ | _ | _ | _ | k2
      · rfl
      · rfl
      · exact absurd rfl hk
      · rfl
      · rfl)

/-- A trivial random source, used where no random path is ever reached. -/
def gZero : ℕ → ℚ → ℚ → ℚ := fun _ _ _ => 0

/-- The 1-wide, 3-tall scenario grid of C2, right after a hypothetical
startup that fills it (from boundary (0,2) to boundary (0,0)) with
Granular(0), Empty, Solid; all change filters are full as after startup. -/
def c2Init : SimState :=
  ⟨1, 3, [Element.Rock, Element.Air, Element.Sand 0],
    [none, none, none], [none, none, none], [none, none, none],
    [none, none, none], [true, true, true], [true, true, true]⟩

/-- The scenario grid after one frame: the elements have not moved at all
(the width-bugged bounds check blocks every observation insertion on a
1-wide grid except onto cell 0, and blocks every swap target); only cell 0
learned that the cell above it is Empty. -/
def c2S1 : SimState :=
  ⟨1, 3, [Element.Rock, Element.Air, Element.Sand 0],
    [some Element.Air, none, none], [none, none, none], [none, none, none],
    [none, none, none], [true, false, false], [false, false, false]⟩

/-- The scenario grid from the second frame on: a fixed point of `tick`. -/
def c2S2 : SimState :=
  ⟨1, 3, [Element.Rock, Element.Air, Element.Sand 0],
    [some Element.Air, none, none], [none, none, none], [none, none, none],
    [none, none, none], [false, false, false], [false, false, false]⟩

lemma c2_tick_one (g : ℕ → ℚ → ℚ → ℚ) : tick c2Init g = c2S1 := by rfl

lemma c2_tick_two (g : ℕ → ℚ → ℚ → ℚ) : tick c2S1 g = c2S2 := by rfl

lemma c2_tick_fix (g : ℕ → ℚ → ℚ → ℚ) : tick c2S2 g = c2S2 := by rfl

lemma c2_seq_fix (gs : ℕ → ℕ → ℚ → ℚ → ℚ) (n : ℕ) :
    tickSeq gs n c2S2 = c2S2 := by
  induction n generalizing gs with
  | zero => rfl
  | succ m ih =>
    rw [tickSeq, c2_tick_fix]
    exact ih _

/-- C2 counterexample: on the 1x3 scenario grid, one tick leaves the grid
exactly as it was — the granular cell and the empty cell do not swap, because
`get`'s width-bugged bounds check hides the Down neighbour of every cell of a
1-wide grid and rejects every swap destination. -/
theorem c2_scenario_counterexample :
    (tick c2Init gZero).elem = [Element.Rock, Element.Air, Element.Sand 0] ∧
    (tick c2Init gZero).elem ≠ [Element.Rock, Element.Sand 0, Element.Air] := by
  rw [c2_tick_one]
  exact ⟨rfl, by decide⟩

/-- C2 amended: on the 1-wide, 3-tall grid holding (from one boundary to the
other) Granular(0), Empty, Solid, every number of ticks, under every random
source, leaves the material of every cell exactly as initialized: the
granular cell never receives a Down observation and no swap destination ever
resolves, so no motion whatsoever occurs — in particular there is no tick-1
swap and the state from tick 2 on is a fixed point. -/
theorem c2_scenario_frozen (gs : ℕ → ℕ → ℚ → ℚ → ℚ) (n : ℕ) :
    (tickSeq gs n c2Init).elem = [Element.Rock, Element.Air, Element.Sand 0] := by
  rcases n with _ | _ | m
  · rfl
  · rw [tickSeq, c2_tick_one]
    rfl
  · rw [tickSeq, c2_tick_one, tickSeq, c2_tick_two, c2_seq_fix]
    rfl

lemma rulesStep_evals (width : ℤ) (chR : List Bool)
    (up down left right : List (Option Element)) (g : ℕ → ℚ → ℚ → ℚ)
    (acc : PassOut) (i : ℕ) :
    (rulesStep width chR up down left right g acc i).evals = acc.evals ∨
    (rulesStep width chR up down left right g acc i).evals =
      acc.evals.set i (acc.evals.getD i 0 + 1) := by
  simp only [rulesStep]
  split
  · split
    · left
      rfl
    · right
      split
      · rfl
      · split
        · split
          · rfl
          · rfl
        · split
          · rfl
          · rfl
  · left
    rfl

lemma foldl_evals_le (width : ℤ) (chR : List Bool)
    (up down left right : List (Option Element)) (g : ℕ → ℚ → ℚ → ℚ) :
    ∀ (idxs : List ℕ) (acc : PassOut), idxs.Nodup →
      (∀ i ∈ idxs, acc.evals.getD i 0 = 0) →
      (∀ i, acc.evals.getD i 0 ≤ 1) →
      ∀ i, (idxs.foldl (rulesStep width chR up down left right g) acc).evals.getD
        i 0 ≤ 1 := by
  intro idxs
  induction idxs with
  | nil =>
    intro acc _ _ hb i
    exact hb i
  | cons k rest ih =>
    intro acc hnd hz hb i
    simp only [List.foldl]
    apply ih
    · exact hnd.of_cons
    · intro m hm
      have hmk : m ≠ k := by
        intro hcontra
        subst hcontra
        exact (List.nodup_cons.1 hnd).1 hm
      rcases rulesStep_evals width chR up down left right g acc k with he | he
      · rw [he]
        exact hz m (by simp [hm])
      · rw [he, getD_set_ne _ _ _ _ _ (Ne.symm hmk)]
        exact hz m (by simp [hm])
    · intro m
      rcases rulesStep_evals width chR up down left right g acc k with he | he
      · rw [he]
        exact hb m
      · rw [he]
        by_cases hmk : k = m
        · subst hmk
          by_cases hklen : k < acc.evals.length
          · rw [getD_set_self _ _ _ _ hklen]
            have := hz k (by simp)
            omega
          · rw [List.getD_eq_getElem?_getD, List.getElem?_set]
            simp [hklen]
        · rw [getD_set_ne _ _ _ _ _ hmk]
          exact hb m

/-- C5 amended (provable part): within one `rules` pass each cell is visited,
and hence evaluated, at most once — the pass is one traversal of the entity
list, and neighbour data comes only from the pass-initial observation arrays,
which the pass never writes.  What fails in the claim is the rest: a cell
already consumed as a swap destination, when its single visit comes later,
is evaluated anyway (change detection marks it) and reads its own
already-updated element value; see the counterexample. -/
theorem c5_single_visit (st : SimState) (g : ℕ → ℚ → ℚ → ℚ) (i : ℕ) :
    (rulesPass st g).evals.getD i 0 ≤ 1 := by
  unfold rulesPass
  apply foldl_evals_le
  · exact List.nodup_range _
  · intro m _
    exact getD_replicate _ _ _
  · intro m
    rw [getD_replicate]
    omega

/-- State reached by painting one Water cell at (0,0) of a fresh 3x1 grid. -/
def c5Painted : SimState := paintCell (initState 3 1) 0 0 Element.Water

/-- The painted grid after one frame: the water has not moved (its first
evaluation draws from the collapsed range [0,0]) but the observation arrays
are now populated. -/
def c5St1 : SimState := tick c5Painted gZero

/-- A possible sequence of random draws for the decisive pass: cells 0 and 1
draw 1 (within their ranges [0,5] and [-5,5]), cell 2 draws 0 (within its
range [-5,0]). -/
def c5g : ℕ → ℚ → ℚ → ℚ := fun i _ _ => if i = 2 then 0 else 1

/-- C5 counterexample: in a single `rules` pass over the reachable state
`c5St1`, cell 1 — freshly consumed as the destination of cell 0's swap — is
nonetheless evaluated as a source later in the same pass (reading its
just-updated element), and the water consequently crosses two cells in one
pass, ending at cell 2. -/
theorem c5_reeval_counterexample :
    (rulesPass c5St1 c5g).reeval.getD 1 false = true ∧
    (rulesPass c5St1 c5g).cur =
      [Element.Air, Element.Air, Element.Water] := by
  exact ⟨rfl, rfl⟩

end LooseDirt
